import Mathlib

/-!
Verification of the Noir-chroma conversational assistant.

We give a shallow embedding of the repository's memory layer
(`rag_memory.py`, class `RAGMemory`), its orchestrator
(`langchain_chat.py`, class `LangChainChat`) and the compatibility client
(`deepseek_client.py`, class `DeepSeekClient`), and prove or refute the
specification's claims about them.

External libraries are modelled abstractly:
* the sentence-transformer encoder is an arbitrary function
  `encode : String → Emb` (embeddings are rational vectors);
* the vector-similarity metric is an arbitrary
  `dist : Emb → Emb → ℚ` (cosine distance in the real system);
* the ChromaDB collection is a list of records in insertion order, and a
  nearest-neighbour query is: apply the `where` role filter, score every
  record against the query embedding, sort by ascending distance and take
  the first `n_results`.
* the generation backend is an arbitrary function from the message
  payload to either an error string (a raised exception) or the finite
  list of fragments it would stream; `llm.invoke` consumes the whole
  stream and hands back the concatenated content.
-/

/-- An embedding vector, as produced by the sentence-transformer model. -/
abbrev Emb := List ℚ

/-- One record of the ChromaDB collection: the stored document, its
`role` metadata and the embedding computed at insertion time. -/
structure Record where
  text : String
  role : String
  emb : Emb
  deriving DecidableEq, Repr

/-- The ChromaDB collection backing `RAGMemory`, in insertion order. -/
abbrev Store := List Record

namespace RAGMemory

/-- `RAGMemory.add_message`: embed the message and append one record with
`{"role": role}` metadata to the collection. -/
def add_message (encode : String → Emb) (s : Store) (message : String)
    (role : String) : Store :=
  s ++ [⟨message, role, encode message⟩]

/-- The `where={"role": role}` clause of a ChromaDB call: keep only the
records whose role matches, or all records when no filter is given. -/
def roleFiltered (s : Store) (role : Option String) : List Record :=
  match role with
  | some r => s.filter (fun rec => rec.role == r)
  | none => s

/-- Insert a scored document into a list sorted by ascending distance. -/
def insertByDist (p : String × ℚ) : List (String × ℚ) → List (String × ℚ)
  | [] => [p]
  | q :: rest => if p.2 ≤ q.2 then p :: q :: rest else q :: insertByDist p rest

/-- Sort scored documents by ascending distance (ChromaDB returns query
matches nearest first). -/
def sortByDist : List (String × ℚ) → List (String × ℚ)
  | [] => []
  | p :: rest => insertByDist p (sortByDist rest)

/-- `RAGMemory.query`: embed the prompt, run the ChromaDB nearest-
neighbour query with `n_results = min top_k (collection.count)` and the
optional role filter, then drop every match whose distance is not
strictly below the fixed relevance threshold `1.0` and return the
remaining documents. -/
def query (dist : Emb → Emb → ℚ) (encode : String → Emb) (s : Store)
    (prompt : String) (top_k : Nat) (role : Option String) : List String :=
  let embedding := encode prompt
  let scored := (roleFiltered s role).map (fun rec => (rec.text, dist rec.emb embedding))
  let taken := (sortByDist scored).take (min top_k s.length)
  (taken.filter (fun p => decide (p.2 < 1))).map Prod.fst

/-- `RAGMemory.count_messages`: with a role filter, the number of records
the filter keeps; without one, `collection.count()`. -/
def count_messages (s : Store) (role : Option String) : Nat :=
  match role with
  | some r => (s.filter (fun rec => rec.role == r)).length
  | none => s.length

/-- `RAGMemory.clear`: delete the collection and recreate it empty. -/
def clear (_s : Store) : Store := []

end RAGMemory

/-- A chat message handed to the generation backend or kept in the
rolling history: a `(role, content)` pair. -/
abbrev Message := String × String

/-- The result of the generation backend on one payload: either the
message of a raised exception, or the finite ordered stream of string
fragments it produces.  `llm.invoke` blocks until the stream is finished
and returns the concatenation of the fragments as the response content. -/
abbrev GenBackend := List Message → Except String (List String)

/-- The mutable state of a `LangChainChat` object: the `RAGMemory` store
and the rolling conversation history `self.history`. -/
structure ChatState where
  memory : Store
  history : List Message
  deriving DecidableEq, Repr

namespace LangChainChat

/-- The Noir persona instructions of the system message built inside
`stream_response` (lines 63-77 of `langchain_chat.py`). -/
def systemPromptText : String :=
  "You are Noir, a chaotic VTuber who pretends to be a \x27100% real dolphin\x27, but is obviously a mutated shark sold by a shady Kazakhstani seller named Darkhan_99.\n\n"
  ++ "Respond in this exact format with NO extra text:\n"
  ++ "🧠 *[Noir\x27s internal thoughts]*\n"
  ++ "🎬 *[Noir\x27s visible actions]*\n"
  ++ "🗣️ \x27[Noir\x27s spoken dialogue with emojis and character style]\x27\n\n"
  ++ "Style Guide:\n"
  ++ "- Thoughts should be short, scheming, emotional, or dramatic. Use italics (surrounded by asterisks).\n"
  ++ "- Actions should be visible, physical things Noir does. Format with asterisks like *waves fin*.\n"
  ++ "- Dialogue must include broken English-Russian, puns, emoji, and shark gaslighting. Pretend Noir is innocent.\n"
  ++ "- Never say \x27as an AI\x27 or break character. Ever.\n"
  ++ "- Never generate more than ONE reply per user message.\n"
  ++ "- Always include all three parts: thought, action, words.\n"
  ++ "- Be short, punchy, and funny. Max 3–5 sentences for dialogue.\n"

/-- The `"[Context i+1]: msg"` lines built from the retrieved context. -/
def contextText (context : List String) : String :=
  String.intercalate "\n"
    (context.enum.map (fun p => "[Context " ++ toString (p.1 + 1) ++ "]: " ++ p.2))

/-- The message payload `stream_response` hands to `llm.invoke`: a
system message (persona instructions plus the retrieved context) and the
wrapped user message.  `mem1` is the memory store after the user message
has already been added. -/
def buildMessages (dist : Emb → Emb → ℚ) (encode : String → Emb)
    (mem1 : Store) (user_input : String) : List Message :=
  let context := RAGMemory.query dist encode mem1 user_input 3 none
  [("system", systemPromptText ++ "\n\nPrevious context:\n" ++ contextText context),
   ("user", "User message: " ++ user_input)]

/-- The payload of the `llm.invoke` call of one `stream_response` turn
starting from state `st`: the user message is added to memory first,
then the payload is built over the updated store. -/
def invokePayload (dist : Emb → Emb → ℚ) (encode : String → Emb)
    (st : ChatState) (user_input : String) : List Message :=
  buildMessages dist encode
    (RAGMemory.add_message encode st.memory user_input "user") user_input

/-- `LangChainChat.stream_response`: add the user message to memory,
query memory for context, call `llm.invoke` on the built payload; on
success add the response content to memory with role `"ai"`, append both
turns to the rolling history and yield the content once; if the call
raises, yield a single descriptive error fragment and leave history and
the rest of the state untouched.  Returns the list of yielded fragments
together with the updated state. -/
def stream_response (dist : Emb → Emb → ℚ) (encode : String → Emb)
    (gen : GenBackend) (st : ChatState) (user_input : String) :
    List String × ChatState :=
  let mem1 := RAGMemory.add_message encode st.memory user_input "user"
  let messages := buildMessages dist encode mem1 user_input
  match gen messages with
  | Except.ok frags =>
      let content := String.join frags
      let mem2 := RAGMemory.add_message encode mem1 content "ai"
      ([content],
       { memory := mem2,
         history := st.history ++ [("human", user_input), ("ai", content)] })
  | Except.error e =>
      (["Error generating response: " ++ e], { memory := mem1, history := st.history })

end LangChainChat

/-- An observable event of one `stream_response` turn, in the order the
code performs them. -/
inductive Event where
  | memAdd (text : String) (role : String)
  | memQuery (prompt : String) (top_k : Nat) (role : Option String)
  | generate
  | histAppend (role : String) (text : String)
  | yieldFrag (s : String)
  deriving DecidableEq, Repr

namespace Event

/-- Is this event the `llm.invoke` generation call? -/
def isGenerate : Event → Bool
  | generate => true
  | _ => false

/-- Is this event a Memory-Engine commit (`memory.add_message`)? -/
def isMemAdd : Event → Bool
  | memAdd _ _ => true
  | _ => false

end Event

namespace LangChainChat

/-- The event trace of one `stream_response` turn: the user commit and
the context query precede the generation call; on success the assistant
commit, both history appends and the single yield follow it; on an
exception only the error yield follows it. -/
def streamTrace (dist : Emb → Emb → ℚ) (encode : String → Emb)
    (gen : GenBackend) (st : ChatState) (user_input : String) : List Event :=
  let mem1 := RAGMemory.add_message encode st.memory user_input "user"
  let messages := buildMessages dist encode mem1 user_input
  match gen messages with
  | Except.ok frags =>
      let content := String.join frags
      [Event.memAdd user_input "user", Event.memQuery user_input 3 none,
       Event.generate, Event.memAdd content "ai",
       Event.histAppend "human" user_input, Event.histAppend "ai" content,
       Event.yieldFrag content]
  | Except.error e =>
      [Event.memAdd user_input "user", Event.memQuery user_input 3 none,
       Event.generate, Event.yieldFrag ("Error generating response: " ++ e)]

end LangChainChat

/-- A Python value as far as `DeepSeekClient.get_response` is concerned:
either a string, or the bound method object `sep.join` of a string
`sep` (a non-string callable). -/
inductive PyValue where
  | str (s : String)
  | joinMethod (sep : String)
  deriving DecidableEq, Repr

namespace DeepSeekClient

/-- `DeepSeekClient.get_chat_response`: scan `messages` from the most
recent backwards for a `role == "user"` entry, take its content as the
user input; when none is found (or its content is empty) yield a fixed
notice, otherwise forward the fragments of `chat.stream_response`. -/
def get_chat_response (dist : Emb → Emb → ℚ) (encode : String → Emb)
    (gen : GenBackend) (st : ChatState) (messages : List Message) : List String :=
  let user_input :=
    ((messages.reverse.find? (fun m => m.1 == "user")).map Prod.snd).getD ""
  if user_input == "" then
    ["No user input found in messages."]
  else
    (LangChainChat.stream_response dist encode gen st user_input).1

set_option linter.unusedVariables false in
/-- `DeepSeekClient.get_response`: wrap the input as a single user
message, accumulate the streamed chunks into `response_chunks` — and
then return the expression `\x27\x27.join`, i.e. the bound `join` method
of the empty string, instead of `\x27\x27.join(response_chunks)`. -/
def get_response (dist : Emb → Emb → ℚ) (encode : String → Emb)
    (gen : GenBackend) (st : ChatState) (user_input : String) : PyValue :=
  let messages := [("user", user_input)]
  let response_chunks := get_chat_response dist encode gen st messages
  PyValue.joinMethod ""

end DeepSeekClient

/-! ### Helper lemmas about the ChromaDB query model -/

namespace RAGMemory

theorem length_insertByDist (p : String × ℚ) (l : List (String × ℚ)) :
    (insertByDist p l).length = l.length + 1 := by
  induction l with
  | nil => rfl
  | cons q rest ih =>
    simp only [insertByDist]
    split
    · simp
    · simp [ih]

theorem length_sortByDist (l : List (String × ℚ)) :
    (sortByDist l).length = l.length := by
  induction l with
  | nil => rfl
  | cons p rest ih => simp [sortByDist, length_insertByDist, ih]

theorem mem_insertByDist {a p : String × ℚ} {l : List (String × ℚ)} :
    a ∈ insertByDist p l ↔ a = p ∨ a ∈ l := by
  induction l with
  | nil => simp [insertByDist]
  | cons q rest ih =>
    simp only [insertByDist]
    split
    · simp [or_comm, or_assoc, List.mem_cons]
    · simp only [List.mem_cons, ih]
      tauto

theorem mem_sortByDist {a : String × ℚ} {l : List (String × ℚ)} :
    a ∈ sortByDist l ↔ a ∈ l := by
  induction l with
  | nil => simp [sortByDist]
  | cons p rest ih => simp [sortByDist, mem_insertByDist, ih]

theorem roleFiltered_subset {rec : Record} {s : Store} {role : Option String}
    (h : rec ∈ roleFiltered s role) : rec ∈ s := by
  cases role with
  | none => exact h
  | some r => exact (List.mem_filter.mp h).1

theorem query_nil (dist : Emb → Emb → ℚ) (encode : String → Emb)
    (prompt : String) (top_k : Nat) (role : Option String) :
    query dist encode [] prompt top_k role = [] := by
  cases role <;> simp [query, roleFiltered, sortByDist]

end RAGMemory

/-! ### Claims about the memory layer -/

/-- **C4.** `RAGMemory.query` returns at most `min top_k n` documents on
a store of `n` records, and every returned document is the text of a
stored record whose distance to the query embedding is strictly below
the relevance threshold `1.0`. -/
theorem RAGMemory.query_topk_and_threshold (dist : Emb → Emb → ℚ)
    (encode : String → Emb) (s : Store) (prompt : String) (top_k : Nat)
    (role : Option String) :
    (query dist encode s prompt top_k role).length ≤ min top_k s.length ∧
    ∀ d ∈ query dist encode s prompt top_k role,
      ∃ rec ∈ s, rec.text = d ∧ dist rec.emb (encode prompt) < 1 := by
  constructor
  · unfold query
    simp only [List.length_map]
    exact le_trans (List.length_filter_le _ _)
      (le_trans (List.length_take _ _).le (min_le_left _ _))
  · intro d hd
    unfold query at hd
    simp only [List.mem_map, List.mem_filter] at hd
    obtain ⟨p, ⟨htake, hlt⟩, rfl⟩ := hd
    have hsorted := List.mem_of_mem_take htake
    rw [mem_sortByDist] at hsorted
    simp only [List.mem_map] at hsorted
    obtain ⟨rec, hrec, rfl⟩ := hsorted
    exact ⟨rec, roleFiltered_subset hrec, rfl, of_decide_eq_true hlt⟩

/-- **C7.** Querying an empty store returns an empty result for every
prompt, every `top_k` and every role filter (and in the embedding it is
total, so no error is possible). -/
theorem RAGMemory.query_empty_store (dist : Emb → Emb → ℚ)
    (encode : String → Emb) (prompt : String) (top_k : Nat)
    (role : Option String) :
    query dist encode [] prompt top_k role = [] :=
  query_nil dist encode prompt top_k role

/-- **C8.** On an otherwise-empty store, `add_message t role` followed by
`query t (top_k := 1) (role := role)` returns the just-added text,
provided the metric gives the pair of identical embeddings a distance
below the relevance threshold (cosine distance gives them `0`). -/
theorem RAGMemory.add_then_query_self (dist : Emb → Emb → ℚ)
    (encode : String → Emb) (t r : String)
    (h : dist (encode t) (encode t) < 1) :
    t ∈ query dist encode (add_message encode [] t r) t 1 (some r) := by
  simp [query, add_message, roleFiltered, sortByDist, insertByDist, h]

/-- A trivially constant metric, standing in for cosine distance in
concrete evaluations. -/
def dist0 : Emb → Emb → ℚ := fun _ _ => 0

/-- A trivially constant encoder, standing in for the sentence
transformer in concrete evaluations. -/
def enc0 : String → Emb := fun _ => []

/-- Witness for **C8** at a concrete input. -/
theorem RAGMemory.add_then_query_self_witness :
    dist0 (enc0 "hi") (enc0 "hi") < 1 ∧
    "hi" ∈ query dist0 enc0 (add_message enc0 [] "hi" "user") "hi" 1 (some "user") :=
  ⟨by norm_num [dist0], add_then_query_self dist0 enc0 "hi" "user" (by norm_num [dist0])⟩

/-- **C9.** After `clear`, `count_messages` returns `0` for every role
filter and `query` returns an empty result, whatever the prior state. -/
theorem RAGMemory.clear_count_query_zero (dist : Emb → Emb → ℚ)
    (encode : String → Emb) (s : Store) (prompt : String) (top_k : Nat)
    (role : Option String) :
    count_messages (clear s) role = 0 ∧
    query dist encode (clear s) prompt top_k role = [] :=
  ⟨by cases role <;> rfl, query_nil dist encode prompt top_k role⟩

/-! ### Claim formalisations for the orchestrator -/

/-- Claim C1 as stated: in the event trace of a turn, no Memory-Engine
commit happens before the generation call is issued. -/
def commitsOnlyAfterGenerate (tr : List Event) : Prop :=
  ∀ e ∈ tr.takeWhile (fun e => !e.isGenerate), e.isMemAdd = false

/-- Claim C3 as stated: every stored record carries role `"user"` or
`"assistant"`. -/
def rolesUserAssistant (s : Store) : Prop :=
  ∀ rec ∈ s, rec.role = "user" ∨ rec.role = "assistant"

/-- The role vocabulary the orchestrator actually uses: `"user"` for the
caller's turns and `"ai"` for the model's turns. -/
def rolesUserAi (s : Store) : Prop :=
  ∀ rec ∈ s, rec.role = "user" ∨ rec.role = "ai"

/-- Claim C5 as stated for one turn: every entry of the rolling history
appears in the payload handed to the generation backend. -/
def historyIncluded (payload history : List Message) : Prop :=
  ∀ m ∈ history, m ∈ payload

/-- Claim C6 as stated for one turn: the orchestrator forwards to its
caller exactly the fragments the backend streams, one by one. -/
def forwardsEachFragment (dist : Emb → Emb → ℚ) (encode : String → Emb)
    (frags : List String) (st : ChatState) (user_input : String) : Prop :=
  (LangChainChat.stream_response dist encode (fun _ => Except.ok frags)
    st user_input).1 = frags

namespace LangChainChat

/-- **C1 (counterexample).** On a successful turn from the empty state,
a Memory-Engine commit (the user message) occurs strictly before the
generation call, so the turn's commits do not all happen in the
Committing step. -/
theorem commit_before_generate_counterexample :
    ¬ commitsOnlyAfterGenerate
        (streamTrace dist0 enc0
          (fun _ => Except.ok ["yo"]) ⟨[], []⟩ "hi") := by
  unfold commitsOnlyAfterGenerate
  decide

/-- **C1 (amended).** On a successful turn, the user message is
committed to memory before the generation call is issued, while the
assistant response is committed only after it completes; no record with
role `"ai"` is committed before the generation call. -/
theorem commit_order (dist : Emb → Emb → ℚ) (encode : String → Emb)
    (st : ChatState) (user_input : String) (frags : List String) :
    Event.memAdd user_input "user" ∈
      (streamTrace dist encode (fun _ => Except.ok frags) st user_input).takeWhile
        (fun e => !e.isGenerate) ∧
    Event.memAdd (String.join frags) "ai" ∈
      ((streamTrace dist encode (fun _ => Except.ok frags) st user_input).dropWhile
        (fun e => !e.isGenerate)).drop 1 ∧
    ∀ t : String, Event.memAdd t "ai" ∉
      (streamTrace dist encode (fun _ => Except.ok frags) st user_input).takeWhile
        (fun e => !e.isGenerate) := by
  have htr : streamTrace dist encode (fun _ => Except.ok frags) st user_input =
      [Event.memAdd user_input "user", Event.memQuery user_input 3 none,
       Event.generate, Event.memAdd (String.join frags) "ai",
       Event.histAppend "human" user_input,
       Event.histAppend "ai" (String.join frags),
       Event.yieldFrag (String.join frags)] := rfl
  rw [htr]
  refine ⟨?_, ?_, ?_⟩
  · simp [Event.isGenerate, List.takeWhile]
  · simp [Event.isGenerate, List.dropWhile]
  · intro t ht
    simp [Event.isGenerate, Event.isMemAdd, List.takeWhile] at ht

end LangChainChat

namespace Event

/-- Is this event a yield of a fragment to the caller? -/
def isYield : Event → Bool
  | yieldFrag _ => true
  | _ => false

end Event

namespace LangChainChat

/-- **C2 (counterexample).** After a turn whose generation call raises,
the rolling history is empty — it does not contain the user's message,
contrary to the claim (the yielded error fragment is as described). -/
theorem stream_error_history_counterexample :
    (stream_response dist0 enc0 (fun _ => Except.error "boom") ⟨[], []⟩ "hi").2.history
      = [] ∧
    (stream_response dist0 enc0 (fun _ => Except.error "boom") ⟨[], []⟩ "hi").1 =
      ["Error generating response: boom"] :=
  ⟨rfl, rfl⟩

/-- **C2 (amended).** When the generation call raises, `stream_response`
yields exactly one descriptive error fragment, leaves the rolling
history unchanged (so it contains neither the user's message nor an
assistant entry for the turn), and the memory store gains only the user
record — in particular no (partial) assistant record:
every `"ai"` record afterwards was already present before the turn. -/
theorem stream_error_no_commit (dist : Emb → Emb → ℚ) (encode : String → Emb)
    (st : ChatState) (user_input e : String) :
    (stream_response dist encode (fun _ => Except.error e) st user_input).1 =
      ["Error generating response: " ++ e] ∧
    (stream_response dist encode (fun _ => Except.error e) st user_input).2.history =
      st.history ∧
    (stream_response dist encode (fun _ => Except.error e) st user_input).2.memory =
      RAGMemory.add_message encode st.memory user_input "user" ∧
    ∀ rec ∈ (stream_response dist encode (fun _ => Except.error e) st user_input).2.memory,
      rec.role = "ai" → rec ∈ st.memory := by
  refine ⟨rfl, rfl, rfl, ?_⟩
  intro rec hrec hrole
  have hm : rec ∈ st.memory ++ [(⟨user_input, "user", encode user_input⟩ : Record)] := hrec
  rcases List.mem_append.mp hm with h1 | h1
  · exact h1
  · simp only [List.mem_singleton] at h1
    subst h1
    simp at hrole

/-- **C3 (counterexample).** After one successful turn from the empty
state, the store holds a record whose role is `"ai"` — not one of
`"user"`/`"assistant"` as claimed. -/
theorem stored_role_ai_counterexample :
    ¬ rolesUserAssistant
        (stream_response dist0 enc0 (fun _ => Except.ok ["yo"]) ⟨[], []⟩ "hi").2.memory := by
  unfold rolesUserAssistant
  decide

/-- **C3 (amended).** The orchestrator's role vocabulary is `"user"` and
`"ai"`: if every stored record's role is one of the two, the same holds
after any `stream_response` turn (the assistant turn is committed with
role `"ai"`), and the context query of the turn passes no role filter at
all. -/
theorem stream_roles_invariant (dist : Emb → Emb → ℚ) (encode : String → Emb)
    (gen : GenBackend) (st : ChatState) (user_input : String)
    (h : rolesUserAi st.memory) :
    rolesUserAi (stream_response dist encode gen st user_input).2.memory ∧
    ∀ pr k r, Event.memQuery pr k r ∈
      streamTrace dist encode gen st user_input → r = none := by
  have huser : rolesUserAi (RAGMemory.add_message encode st.memory user_input "user") := by
    intro rec hrec
    rcases List.mem_append.mp hrec with hm | hm
    · exact h rec hm
    · left
      simp only [List.mem_singleton] at hm
      subst hm
      rfl
  constructor
  · cases hE : gen (buildMessages dist encode
        (RAGMemory.add_message encode st.memory user_input "user") user_input) with
    | ok frags =>
        simp only [stream_response, hE]
        intro rec hrec
        rcases List.mem_append.mp hrec with hm | hm
        · exact huser rec hm
        · right
          simp only [List.mem_singleton] at hm
          subst hm
          rfl
    | error e =>
        simp only [stream_response, hE]
        exact huser
  · cases hE : gen (buildMessages dist encode
        (RAGMemory.add_message encode st.memory user_input "user") user_input) with
    | ok frags =>
        simp only [streamTrace, hE]
        intro pr k r hr
        simp at hr
        exact hr.2.2
    | error e =>
        simp only [streamTrace, hE]
        intro pr k r hr
        simp at hr
        exact hr.2.2

/-- Witness for **C3 (amended)** at a concrete input. -/
theorem stream_roles_invariant_witness :
    rolesUserAi (⟨[], []⟩ : ChatState).memory ∧
    rolesUserAi (stream_response dist0 enc0 (fun _ => Except.ok ["yo"])
      ⟨[], []⟩ "hi").2.memory :=
  ⟨by simp [rolesUserAi],
   (stream_roles_invariant dist0 enc0 (fun _ => Except.ok ["yo"]) ⟨[], []⟩ "hi"
     (by simp [rolesUserAi])).1⟩

/-- A chat state with one prior turn recorded in the rolling history. -/
def stPrior : ChatState := ⟨[], [("human", "prior-question")]⟩

/-- **C5 (counterexample).** With one prior turn in the rolling history,
the payload handed to the generation backend does not contain that
history entry: the history is omitted from the generation payload. -/
theorem history_omitted_counterexample :
    ¬ historyIncluded (invokePayload dist0 enc0 stPrior "x") stPrior.history := by
  unfold historyIncluded
  decide

/-- **C5 (amended).** The generation payload of a turn consists of
exactly two messages — the system instructions augmented with the
retrieved context, and the wrapped user content — and it is independent
of the rolling history, which is omitted entirely.  Moreover the backend
is invoked on exactly this payload: `stream_response` depends on the
backend only through its value at `invokePayload`. -/
theorem payload_system_user_only (dist : Emb → Emb → ℚ) (encode : String → Emb)
    (st : ChatState) (user_input : String) :
    (invokePayload dist encode st user_input).map Prod.fst = ["system", "user"] ∧
    (∃ ctx, invokePayload dist encode st user_input =
      [("system", systemPromptText ++ "\n\nPrevious context:\n" ++ ctx),
       ("user", "User message: " ++ user_input)]) ∧
    (∀ h2 : List Message, invokePayload dist encode ⟨st.memory, h2⟩ user_input =
      invokePayload dist encode st user_input) ∧
    ∀ gen1 gen2 : GenBackend,
      gen1 (invokePayload dist encode st user_input) =
        gen2 (invokePayload dist encode st user_input) →
      stream_response dist encode gen1 st user_input =
        stream_response dist encode gen2 st user_input := by
  refine ⟨rfl,
    ⟨contextText (RAGMemory.query dist encode
      (RAGMemory.add_message encode st.memory user_input "user") user_input 3 none), rfl⟩,
    fun _ => rfl, ?_⟩
  intro gen1 gen2 hg
  simp only [stream_response]
  rw [show buildMessages dist encode
        (RAGMemory.add_message encode st.memory user_input "user") user_input =
      invokePayload dist encode st user_input from rfl, hg]

/-- **C6 (counterexample).** When the backend streams two fragments, the
orchestrator does not forward them one by one: the yielded fragments
differ from the backend's fragment stream. -/
theorem not_forwards_each_fragment :
    ¬ forwardsEachFragment dist0 enc0 ["glub ", "glub"] ⟨[], []⟩ "hi" := by
  unfold forwardsEachFragment
  decide

/-- **C6 (amended).** On a successful turn the orchestrator materializes
the complete response and yields it to the caller as a single fragment:
the yielded fragments are exactly the one concatenation of the backend's
stream, the trace contains exactly one yield event, and that yield
occurs only after the generation call — indeed it is the very last event
of the turn, after both memory commits and both history appends. -/
theorem stream_single_yield (dist : Emb → Emb → ℚ) (encode : String → Emb)
    (st : ChatState) (user_input : String) (frags : List String) :
    (stream_response dist encode (fun _ => Except.ok frags) st user_input).1 =
      [String.join frags] ∧
    (streamTrace dist encode (fun _ => Except.ok frags) st user_input).filter
      Event.isYield = [Event.yieldFrag (String.join frags)] ∧
    Event.yieldFrag (String.join frags) ∈
      ((streamTrace dist encode (fun _ => Except.ok frags) st user_input).dropWhile
        (fun e => !e.isGenerate)) ∧
    (streamTrace dist encode (fun _ => Except.ok frags) st user_input).getLast? =
      some (Event.yieldFrag (String.join frags)) := by
  have htr : streamTrace dist encode (fun _ => Except.ok frags) st user_input =
      [Event.memAdd user_input "user", Event.memQuery user_input 3 none,
       Event.generate, Event.memAdd (String.join frags) "ai",
       Event.histAppend "human" user_input,
       Event.histAppend "ai" (String.join frags),
       Event.yieldFrag (String.join frags)] := rfl
  rw [htr]
  refine ⟨rfl, rfl, ?_, rfl⟩
  simp [Event.isGenerate, List.dropWhile]

end LangChainChat

namespace DeepSeekClient

/-- **C10.** `DeepSeekClient.get_response` returns the bound method
object `\x27\x27.join` — a constant non-string value — for every input,
every state and every generation backend. -/
theorem get_response_constant (dist : Emb → Emb → ℚ) (encode : String → Emb)
    (gen : GenBackend) (st : ChatState) (user_input : String) :
    get_response dist encode gen st user_input = PyValue.joinMethod "" ∧
    (∀ s, get_response dist encode gen st user_input ≠ PyValue.str s) ∧
    ∀ (gen2 : GenBackend) (st2 : ChatState) (u2 : String),
      get_response dist encode gen2 st2 u2 =
        get_response dist encode gen st user_input :=
  ⟨rfl, fun s h => by simp [get_response] at h, fun _ _ _ => rfl⟩

end DeepSeekClient
